import Mathlib

/-!
Shallow embedding of the git_repo library (src/git_lib): the URI data model
(git_uri.rs), the external-command layer (git.rs) and the repository
orchestrator (repo.rs).  External effects (filesystem probes, canonicalize,
spawned git commands) are modelled by per-call oracle records, and every
operation additionally returns the ordered trace of external actions it
performed, so that claims about "no clone attempted" or "no data modified"
become statements about the trace.  String manipulation is implemented over
the character list of the string so that every definition evaluates inside
the kernel.
-/

/-- Carrier for an operating-system io error (std::io::Error); only its
identity matters to the embedded logic, never its content. -/
abbrev IoError := String

/-- Carrier for a UTF-8 decoding error (std::string::FromUtf8Error). -/
abbrev Utf8Error := String

/-- Whether a string contains a character (str::contains on a char). -/
def strContains (s : String) (c : Char) : Bool := s.data.contains c

/-- Whether a string is empty. -/
def strIsEmpty (s : String) : Bool := s.data.isEmpty

/-- Whether a string ends with the given suffix string (str::ends_with). -/
def strEndsWith (s suf : String) : Bool := suf.data.isSuffixOf s.data

/-- The string with its last n characters removed. -/
def strDropRight (s : String) (n : Nat) : String :=
  ⟨s.data.take (s.data.length - n)⟩

/-- The string with leading and trailing whitespace removed (str::trim). -/
def strTrim (s : String) : String :=
  ⟨((s.data.dropWhile Char.isWhitespace).reverse.dropWhile
      Char.isWhitespace).reverse⟩

/-- Fuel-indexed splitting of a character list at every occurrence of a
non-empty separator; the fuel is the length of the list, consumed one
character per step. -/
def splitSepAux (sep : List Char) : Nat → List Char → List (List Char)
  | _, [] => [[]]
  | 0, l => [l]
  | fuel + 1, c :: rest =>
    if sep.isPrefixOf (c :: rest) then
      [] :: splitSepAux sep fuel (List.drop (sep.length - 1) rest)
    else
      match splitSepAux sep fuel rest with
      | [] => [[c]]
      | x :: xs => (c :: x) :: xs

/-- Splits a string at every occurrence of a non-empty separator string
(str::split / String::splitOn semantics). -/
def strSplitOn (s sep : String) : List String :=
  (splitSepAux sep.data s.data.length s.data).map (fun l => ⟨l⟩)

/-- Joins a list of strings with the separator between consecutive items. -/
def strJoinSep (sep : String) : List String → String
  | [] => ""
  | [x] => x
  | x :: xs => x ++ sep ++ strJoinSep sep xs

/-- Reads a list of decimal digit characters as a number, rejecting any
non-digit. -/
def digitsToNat : List Char → Nat → Option Nat
  | [], acc => some acc
  | c :: rest, acc =>
    if c.isDigit then digitsToNat rest (acc * 10 + (c.toNat - 48)) else none

/-- Parses a string as a decimal number (str::parse on an integer type),
failing on the empty string or any non-digit character. -/
def strToNat (s : String) : Option Nat :=
  if s.data.isEmpty then none else digitsToNat s.data 0

/-- Parses a string as a boolean exactly the way str::parse on bool does:
only the two literal words are accepted. -/
def parseRustBool (s : String) : Option Bool :=
  if s = "true" then some true
  else if s = "false" then some false
  else none

/-- Failure of remote-reference normalization.  The two modes the spec
distinguishes: the string cannot be decomposed at all, or it carries an
explicit scheme token that is not one of the Git-transportable schemes. -/
inductive ParseFailure where
  | invalid (raw : String)
  | unsupportedScheme (sch : String)
deriving DecidableEq, Repr

/-- Supported uri schemes for parsing (git_uri.rs, enum Scheme). -/
inductive Scheme where
  | File
  | Ftp
  | Ftps
  | Git
  | GitSsh
  | Http
  | Https
  | Ssh
  | Unspecified
deriving DecidableEq, Repr

/-- Textual form of a scheme: strum Display with serialize_all kebab_case,
and the explicit serialization of GitSsh as git+ssh (git_uri.rs). -/
def Scheme.to_string : Scheme → String
  | .File => "file"
  | .Ftp => "ftp"
  | .Ftps => "ftps"
  | .Git => "git"
  | .GitSsh => "git+ssh"
  | .Http => "http"
  | .Https => "https"
  | .Ssh => "ssh"
  | .Unspecified => "unspecified"

/-- Parsing a scheme token back to a variant: strum EnumString accepts
exactly the serialized forms (git_uri.rs). -/
def Scheme.from_str (s : String) : Option Scheme :=
  if s = "file" then some .File
  else if s = "ftp" then some .Ftp
  else if s = "ftps" then some .Ftps
  else if s = "git" then some .Git
  else if s = "git+ssh" then some .GitSsh
  else if s = "http" then some .Http
  else if s = "https" then some .Https
  else if s = "ssh" then some .Ssh
  else if s = "unspecified" then some .Unspecified
  else none

/-- Structured descriptor of a remote reference (git_uri.rs, struct GitUri). -/
structure GitUri where
  host : Option String
  name : String
  owner : Option String
  organization : Option String
  fullname : String
  scheme : Scheme
  user : Option String
  token : Option String
  port : Option Nat
  path : String
  git_suffix : Bool
  scheme_prefix : Bool
deriving DecidableEq, Repr

/-- Splits off an explicit scheme token at the first occurrence of the
colon-slash-slash separator, returning none when the string carries no such
separator. -/
def splitScheme (raw : String) : Option (String × String) :=
  match strSplitOn raw ("://") with
  | [] => none
  | [_] => none
  | sch :: rest => some (sch, strJoinSep ("://") rest)

/-- Maps a scheme token to its variant when it is one of the eight
Git-transportable scheme tokens the spec enumerates. -/
def lookupScheme (s : String) : Option Scheme :=
  if s = "file" then some .File
  else if s = "ftp" then some .Ftp
  else if s = "ftps" then some .Ftps
  else if s = "git" then some .Git
  else if s = "git+ssh" then some .GitSsh
  else if s = "http" then some .Http
  else if s = "https" then some .Https
  else if s = "ssh" then some .Ssh
  else none

/-- Splits a string at the first occurrence of a separator, returning the
part before it and the re-joined remainder. -/
def splitAtFirst (s sep : String) : String × String :=
  match strSplitOn s sep with
  | [] => (s, "")
  | [x] => (x, "")
  | x :: rest => (x, strJoinSep sep rest)

/-- Splits userinfo (user and optional embedded token, separated by a colon)
from the part of a remote reference that precedes the first at-sign. -/
def splitUserinfo (s : String) : (Option String × Option String) × String :=
  match strSplitOn s ("@") with
  | [] => ((none, none), s)
  | [x] => ((none, none), x)
  | u :: rest =>
    let hp := strJoinSep ("@") rest
    match strSplitOn u (":") with
    | [] => ((none, none), hp)
    | [usr] => ((some usr, none), hp)
    | usr :: tks => ((some usr, some (strJoinSep (":") tks)), hp)

/-- Splits an explicit numeric port off a host token. -/
def splitPort (s : String) : String × Option Nat :=
  match strSplitOn s (":") with
  | [h, p] =>
    match strToNat p with
    | some n => (h, some n)
    | none => (h, none)
  | _ => (s, none)

/-- Intermediate decomposition of a remote reference: scheme resolution,
userinfo, host and port extraction, leaving the residual path. -/
structure UriCore where
  scheme : Scheme
  scheme_prefix : Bool
  user : Option String
  token : Option String
  host : Option String
  port : Option Nat
  path : String
deriving DecidableEq, Repr

/-- Modelled from the spec: the first stage of git_url_parse::GitUrl::parse
(external crate, not under src/), following section 4.1 of the spec.  An
explicit scheme token is mapped case-sensitively through the enumerated
Git-transportable prefixes and any other explicit token is rejected as an
unsupported scheme; absence of a recognized token combined with the
user-at-host-colon-path SSH shorthand resolves to the git-ssh scheme with
scheme_prefix false; remaining inputs are local-path style references with
no host and an unspecified scheme.  Inputs that are empty or contain
whitespace cannot be normalized at all. -/
def decompose (raw : String) : Except ParseFailure UriCore :=
  if strIsEmpty raw then .error (.invalid raw)
  else if strContains raw ' ' then .error (.invalid raw)
  else
    match splitScheme raw with
    | some (sch, rest) =>
      match lookupScheme sch with
      | none => .error (.unsupportedScheme sch)
      | some scheme =>
        if scheme = .File then
          .ok { scheme := scheme, scheme_prefix := true, user := none,
                token := none, host := none, port := none, path := rest }
        else
          let (ut, hostpath) := splitUserinfo rest
          let (hostport, path) := splitAtFirst hostpath ("/")
          let (host, port) := splitPort hostport
          .ok { scheme := scheme, scheme_prefix := true, user := ut.1,
                token := ut.2, host := some host, port := port, path := path }
    | none =>
      if strContains raw '@' && strContains raw ':' then
        let (ut, hostpath) := splitUserinfo raw
        let (host, path) := splitAtFirst hostpath (":")
        .ok { scheme := .GitSsh, scheme_prefix := false, user := ut.1,
              token := ut.2, host := some host, port := none, path := path }
      else
        .ok { scheme := .Unspecified, scheme_prefix := false, user := none,
              token := none, host := none, port := none, path := raw }

/-- Repository name and suffix flag derived from the repository segment:
a trailing dot-git marker is stripped from the name and recorded in the
flag. -/
def nameOf (seg : String) : String × Bool :=
  if strEndsWith seg (".git") then (strDropRight seg 4, true) else (seg, false)

/-- Non-empty path segments of the residual path of a decomposed remote
reference. -/
def pathSegments (path : String) : List String :=
  (strSplitOn path ("/")).filter (fun s => !strIsEmpty s)

/-- Repository segment of a remote reference: the last non-empty path
segment after decomposition, when one exists. -/
def repoSegOf (raw : String) : Option String :=
  match decompose raw with
  | .error _ => none
  | .ok core => (pathSegments core.path).getLast?

/-- Modelled from the spec: git_url_parse::GitUrl::parse, the remote-URL
normalizer (external crate, not under src/), per sections 4.1 and 3 of the
spec.  Builds the structured descriptor from the decomposition: repository
name is the last non-empty path segment with any trailing dot-git suffix
stripped (recording the suffix flag), owner is the segment preceding it,
organization the one before that when present, and fullname joins owner and
name.  Fails when no non-empty repository name is derivable. -/
def GitUrl.parse (raw : String) : Except ParseFailure GitUri :=
  match decompose raw with
  | .error e => .error e
  | .ok core =>
    let segs := pathSegments core.path
    match segs.getLast? with
    | none => .error (.invalid raw)
    | some seg =>
      let nb := nameOf seg
      if strIsEmpty nb.1 then .error (.invalid raw)
      else
        let owner := segs.dropLast.getLast?
        .ok { host := core.host
              name := nb.1
              owner := owner
              organization :=
                if segs.length ≥ 3 then segs.dropLast.dropLast.getLast? else none
              fullname :=
                match owner with
                | some o => o ++ "/" ++ nb.1
                | none => nb.1
              scheme := core.scheme
              user := core.user
              token := core.token
              port := core.port
              path := core.path
              git_suffix := nb.2
              scheme_prefix := UriCore.scheme_prefix core }

/-- Outcome of one spawned external command as consumed by the parsing
layer (git.rs): the spawn can fail with an io error, the captured stdout
can fail UTF-8 decoding, or decoded text is available. -/
inductive CmdOut where
  | ioErr (e : IoError)
  | notUtf8 (e : Utf8Error)
  | text (s : String)
deriving DecidableEq, Repr

/-- Errors of the external-command layer (git.rs, enum GitCmdError). -/
inductive GitCmdError where
  | IsRepositoryUtf8Error (e : Utf8Error)
  | GetRemoteError (e : Utf8Error)
  | IsRepositoryBoolParseError (s : String)
  | IsRepositoryIo (e : IoError)
  | InitError (e : IoError)
  | Clone (e : IoError)
  | ParseUriError (e : ParseFailure)
deriving DecidableEq, Repr

/-- Git::is_inside_worktree (git.rs): runs the rev-parse probe and returns
the parsed trimmed boolean output, treating a failed spawn, non-UTF-8
output, or unparseable output as false. -/
def Git.is_inside_worktree (out : CmdOut) : Bool :=
  match out with
  | .ioErr _ => false
  | .notUtf8 _ => false
  | .text s =>
    match parseRustBool (strTrim s) with
    | some parsed => parsed
    | none => false

/-- Git::get_remote_url (git.rs): spawn failure maps to IsRepositoryIo,
UTF-8 failure to GetRemoteError, and an empty trimmed output to the absent
remote. -/
def Git.get_remote_url (out : CmdOut) : Except GitCmdError (Option String) :=
  match out with
  | .ioErr e => .error (.IsRepositoryIo e)
  | .notUtf8 e => .error (.GetRemoteError e)
  | .text s =>
    let remote := strTrim s
    if strIsEmpty remote then .ok none else .ok (some remote)

/-- Git::parse_uri (git.rs): delegates to the normalizer and wraps its
failure as ParseUriError. -/
def Git.parse_uri (url : String) : Except GitCmdError GitUri :=
  match GitUrl.parse url with
  | .ok u => .ok u
  | .error e => .error (.ParseUriError e)

/-- Errors of the repository orchestrator (repo.rs, enum GitRepoError). -/
inductive GitRepoError where
  | CloneError (remote_url repo_path : String) (source : GitCmdError)
  | RepoCheck (e : GitCmdError)
  | RepoPathExpansionError (e : IoError)
  | RepoCheckUtf8Error (e : Utf8Error)
  | AlreadyExistsError (p : String)
  | InvalidGitRemoteUrl (u : String)
deriving DecidableEq, Repr

/-- A cloned or discovered local repository (repo.rs, struct GitRepo). -/
structure GitRepo where
  root_path : String
  remote_url : Option String
deriving DecidableEq, Repr

/-- External actions an orchestrator operation can perform, recorded in
order as a trace. -/
inductive Event where
  | createDirAll (p : String)
  | removeDirAll (p : String)
  | canonicalize (p : String)
  | worktreeCheck (p : String)
  | gitClone (url : String) (p : String)
  | getRemote (name : String) (p : String)
deriving DecidableEq, Repr

/-- Whether an event can modify existing data: recursive removal and the
clone command do; directory creation only adds empty directories and the
probes only read. -/
def Event.modifiesData : Event → Bool
  | .removeDirAll _ => true
  | .gitClone _ _ => true
  | _ => false

/-- Result of an orchestrator operation: a value, a typed recoverable
error, a fatal assertion failure (the panic of assert), or the fatal
unimplemented marker (the panic of todo). -/
inductive Outcome (α : Type) where
  | ok (val : α)
  | err (e : GitRepoError)
  | panic
  | unimplemented
deriving DecidableEq, Repr

deriving instance DecidableEq for Except

/-- Oracle for one run of GitRepo::from_existing: the canonicalize result
and the outputs of the two probe commands it may run. -/
structure ExistingEnv where
  canon : Except IoError String
  worktree : CmdOut
  remote : CmdOut
deriving DecidableEq, Repr

/-- Oracle for one run of GitRepo::from_url: the destination-existence
probe, the create_dir_all result, the canonicalize result, the worktree
probe output, the clone spawn result, and the oracle of the final
from_existing call. -/
structure UrlEnv where
  destExists : Bool
  mkdirRes : Except IoError Unit
  canon1 : Except IoError String
  worktree1 : CmdOut
  cloneRes : Except IoError Unit
  exEnv : ExistingEnv
deriving DecidableEq, Repr

/-- Oracle for one run of GitRepo::from_url_force. -/
structure ForceEnv where
  destExists : Bool
  removeRes : Except IoError Unit
  mkdirRes : Except IoError Unit
  canon1 : Except IoError String
  cloneRes : Except IoError Unit
  exEnv : ExistingEnv
deriving DecidableEq, Repr

/-- GitRepo::from_existing (repo.rs): asserts the path carries no tilde,
canonicalizes it (io failure becomes RepoPathExpansionError), and when the
canonical path is inside a worktree builds the handle from it and the
origin remote reported by the command layer; otherwise hits the
unimplemented marker. -/
def GitRepo.from_existing (env : ExistingEnv) (repo_path : String) :
    Outcome GitRepo × List Event :=
  if strContains repo_path '~' then (.panic, [])
  else
    match env.canon with
    | .error e => (.err (.RepoPathExpansionError e), [.canonicalize repo_path])
    | .ok expanded =>
      if Git.is_inside_worktree env.worktree then
        match Git.get_remote_url env.remote with
        | .error e =>
          (.err (.RepoCheck e),
            [.canonicalize repo_path, .worktreeCheck expanded,
             .getRemote ("origin") expanded])
        | .ok r =>
          (.ok { root_path := expanded, remote_url := r },
            [.canonicalize repo_path, .worktreeCheck expanded,
             .getRemote ("origin") expanded])
      else
        (.unimplemented, [.canonicalize repo_path, .worktreeCheck expanded])

/-- The create_dir_all step of GitRepo::from_url: runs only when the
destination does not exist, and records the attempt in the trace whether or
not it succeeds. -/
def ensureDir (destExists : Bool) (mk : Except IoError Unit) (p : String) :
    Except IoError Unit × List Event :=
  if destExists then (.ok (), [])
  else
    match mk with
    | .error e => (.error e, [Event.createDirAll p])
    | .ok _ => (.ok (), [Event.createDirAll p])

/-- GitRepo::from_url (repo.rs): asserts the destination carries no tilde,
creates it when absent, canonicalizes it, refuses to clone when the
canonical destination is already inside a worktree, otherwise spawns the
clone (spawn failure wrapped as CloneError) and re-derives the handle by
inspecting the destination through from_existing. -/
def GitRepo.from_url (env : UrlEnv) (remote_url to_path : String) :
    Outcome GitRepo × List Event :=
  if strContains to_path '~' then (.panic, [])
  else
    match ensureDir env.destExists env.mkdirRes to_path with
    | (.error e, t) => (.err (.RepoPathExpansionError e), t)
    | (.ok _, t) =>
      match env.canon1 with
      | .error e =>
        (.err (.RepoPathExpansionError e), t ++ [.canonicalize to_path])
      | .ok expanded =>
        let t := t ++ [Event.canonicalize to_path, Event.worktreeCheck expanded]
        if Git.is_inside_worktree env.worktree1 then
          (.err (.AlreadyExistsError expanded), t)
        else
          match env.cloneRes with
          | .error e =>
            (.err (.CloneError remote_url expanded (.Clone e)),
              t ++ [.gitClone remote_url to_path])
          | .ok _ =>
            let res := GitRepo.from_existing env.exEnv to_path
            (res.1, t ++ [.gitClone remote_url to_path] ++ res.2)

/-- The directory preparation step of GitRepo::from_url_force: an existing
destination is recursively removed and recreated, an absent one only
created; every attempted action is recorded in the trace. -/
def forcePrep (env : ForceEnv) (p : String) :
    Except IoError Unit × List Event :=
  if !env.destExists then
    match env.mkdirRes with
    | .error e => (.error e, [Event.createDirAll p])
    | .ok _ => (.ok (), [Event.createDirAll p])
  else
    match env.removeRes with
    | .error e => (.error e, [Event.removeDirAll p])
    | .ok _ =>
      match env.mkdirRes with
      | .error e => (.error e, [Event.removeDirAll p, Event.createDirAll p])
      | .ok _ => (.ok (), [Event.removeDirAll p, Event.createDirAll p])

/-- GitRepo::from_url_force (repo.rs): asserts the destination carries no
tilde, removes and recreates an existing destination (only creates an
absent one), canonicalizes it, spawns the clone with no worktree check, and
re-derives the handle through from_existing. -/
def GitRepo.from_url_force (env : ForceEnv) (remote_url to_path : String) :
    Outcome GitRepo × List Event :=
  if strContains to_path '~' then (.panic, [])
  else
    match forcePrep env to_path with
    | (.error e, t) => (.err (.RepoPathExpansionError e), t)
    | (.ok _, t) =>
      match env.canon1 with
      | .error e =>
        (.err (.RepoPathExpansionError e), t ++ [.canonicalize to_path])
      | .ok expanded =>
        let t := t ++ [Event.canonicalize to_path]
        match env.cloneRes with
        | .error e =>
          (.err (.CloneError remote_url expanded (.Clone e)),
            t ++ [.gitClone remote_url to_path])
        | .ok _ =>
          let res := GitRepo.from_existing env.exEnv to_path
          (res.1, t ++ [.gitClone remote_url to_path] ++ res.2)

/-- Joining of a destination root and a repository name (PathBuf::join for
a relative right-hand side). -/
def pathJoin (a b : String) : String := a ++ "/" ++ b

/-- One iteration of the loop of GitRepo::from_url_multi (repo.rs): a
remote whose normalization succeeds is cloned into the root joined with its
repository name, one whose normalization fails becomes the
InvalidGitRemoteUrl error without any external action. -/
def GitRepo.cloneItem (env : UrlEnv) (root url : String) :
    Outcome GitRepo × List Event :=
  match Git.parse_uri url with
  | .ok parsed_uri => GitRepo.from_url env url (pathJoin root parsed_uri.name)
  | .error _ => (.err (.InvalidGitRemoteUrl url), [])

/-- The per-item result slot produced by one loop iteration, when the
iteration terminates normally: a successful handle or the item's own
error.  A fatal panic produces no slot. -/
def itemEntry : Outcome GitRepo → Option (Except GitRepoError GitRepo)
  | .ok r => some (.ok r)
  | .err e => some (.error e)
  | .panic => none
  | .unimplemented => none

/-- Appends one item's result slot in front of the outcome of the remaining
iterations, propagating a fatal abort of the remainder. -/
def pushEntry (entry : Except GitRepoError GitRepo) (t : List Event) :
    Outcome (List (Except GitRepoError GitRepo)) × List Event →
      Outcome (List (Except GitRepoError GitRepo)) × List Event
  | (.ok entries, t2) => (.ok (entry :: entries), t ++ t2)
  | (o, t2) => (o, t ++ t2)

/-- The loop of GitRepo::from_url_multi, with the index of the current item
selecting its oracle; a fatal panic in one iteration aborts the loop, a
typed error becomes that item's slot and the loop continues. -/
def runMulti (envs : Nat → UrlEnv) (root : String) :
    List String → Nat →
      Outcome (List (Except GitRepoError GitRepo)) × List Event
  | [], _ => (.ok [], [])
  | url :: rest, i =>
    match GitRepo.cloneItem (envs i) root url with
    | (.ok r, t) => pushEntry (.ok r) t (runMulti envs root rest (i + 1))
    | (.err e, t) => pushEntry (.error e) t (runMulti envs root rest (i + 1))
    | (.panic, t) => (.panic, t)
    | (.unimplemented, t) => (.unimplemented, t)

/-- GitRepo::from_url_multi (repo.rs): processes the remotes in input
order, producing one result slot per input. -/
def GitRepo.from_url_multi (envs : Nat → UrlEnv) (remote_urls : List String)
    (to_root_path : String) :
    Outcome (List (Except GitRepoError GitRepo)) × List Event :=
  runMulti envs to_root_path remote_urls 0

/-- C10: the nine Scheme variants map to their kebab-case tokens (GitSsh to
the explicit token git+ssh) and parsing the token back yields the original
variant, so the textual mapping is a bijective round-trip. -/
theorem scheme_to_string_from_str_roundtrip :
    (∀ s : Scheme, Scheme.from_str (Scheme.to_string s) = some s) ∧
    Scheme.to_string .File = "file" ∧
    Scheme.to_string .Ftp = "ftp" ∧
    Scheme.to_string .Ftps = "ftps" ∧
    Scheme.to_string .Git = "git" ∧
    Scheme.to_string .GitSsh = "git+ssh" ∧
    Scheme.to_string .Http = "http" ∧
    Scheme.to_string .Https = "https" ∧
    Scheme.to_string .Ssh = "ssh" ∧
    Scheme.to_string .Unspecified = "unspecified" := by
  refine ⟨fun s => ?_, rfl, rfl, rfl, rfl, rfl, rfl, rfl, rfl, rfl⟩
  cases s <;> rfl

/-- C8: the worktree probe is a total boolean: a failed spawn, non-UTF-8
output, or output whose trimmed text is not a boolean literal all yield
false, and a parseable trimmed output yields exactly the parsed boolean. -/
theorem is_inside_worktree_total (e : IoError) (u : Utf8Error) (s : String)
    (b : Bool) :
    Git.is_inside_worktree (.ioErr e) = false ∧
    Git.is_inside_worktree (.notUtf8 u) = false ∧
    (parseRustBool (strTrim s) = none →
      Git.is_inside_worktree (.text s) = false) ∧
    (parseRustBool (strTrim s) = some b →
      Git.is_inside_worktree (.text s) = b) := by
  refine ⟨rfl, rfl, fun h => ?_, fun h => ?_⟩ <;>
    simp [Git.is_inside_worktree, h]

/-- Witness for C8 at concrete probe outputs, including an output that is
not a boolean literal and a trimmed true output. -/
theorem is_inside_worktree_total_witness :
    Git.is_inside_worktree (.ioErr ("spawn failed")) = false ∧
    Git.is_inside_worktree (.notUtf8 ("bad bytes")) = false ∧
    Git.is_inside_worktree (.text ("not-a-bool")) = false ∧
    Git.is_inside_worktree (.text (" true\n")) = true :=
  ⟨(is_inside_worktree_total ("spawn failed") ("x") ("x") true).1,
   (is_inside_worktree_total ("x") ("bad bytes") ("x") true).2.1,
   (is_inside_worktree_total ("x") ("x") ("not-a-bool") true).2.2.1 (by decide),
   (is_inside_worktree_total ("x") ("x") (" true\n") true).2.2.2 (by decide)⟩

/-- C7: a destination or source path containing the unexpanded
home-directory shorthand makes clone single, forced clone and inspect
existing halt with the fatal assertion before any external action (the
trace is empty), rather than returning a typed error value. -/
theorem tilde_paths_panic_before_any_action (p : String)
    (h : strContains p '~' = true) (remote_url : String) (uenv : UrlEnv)
    (fenv : ForceEnv) (eenv : ExistingEnv) :
    GitRepo.from_url uenv remote_url p = (.panic, []) ∧
    GitRepo.from_url_force fenv remote_url p = (.panic, []) ∧
    GitRepo.from_existing eenv p = (.panic, []) ∧
    (∀ e : GitRepoError, (Outcome.panic : Outcome GitRepo) ≠ .err e) := by
  refine ⟨?_, ?_, ?_, fun e => by simp⟩ <;>
    simp [GitRepo.from_url, GitRepo.from_url_force, GitRepo.from_existing, h]

/-- Witness for C7 at a concrete tilde path and arbitrary concrete
oracles. -/
theorem tilde_paths_panic_before_any_action_witness :
    GitRepo.from_url
        { destExists := true, mkdirRes := .ok (), canon1 := .ok ("/h/r"),
          worktree1 := .text ("false"), cloneRes := .ok (),
          exEnv := { canon := .ok ("/h/r"), worktree := .text ("true"),
                     remote := .text ("u") } }
        ("https://h/o/r.git") ("~/repos/r") = (.panic, []) ∧
    GitRepo.from_url_force
        { destExists := true, removeRes := .ok (), mkdirRes := .ok (),
          canon1 := .ok ("/h/r"), cloneRes := .ok (),
          exEnv := { canon := .ok ("/h/r"), worktree := .text ("true"),
                     remote := .text ("u") } }
        ("https://h/o/r.git") ("~/repos/r") = (.panic, []) ∧
    GitRepo.from_existing
        { canon := .ok ("/h/r"), worktree := .text ("true"),
          remote := .text ("u") } ("~/repos/r") = (.panic, []) ∧
    (∀ e : GitRepoError, (Outcome.panic : Outcome GitRepo) ≠ .err e) :=
  tilde_paths_panic_before_any_action ("~/repos/r") (by decide)
    ("https://h/o/r.git") _ _ _

/-- C3: for every remote string accepted by the normalizer, the descriptor's
name is the repository segment with any trailing dot-git suffix stripped and
the git_suffix flag records exactly whether the suffix was present. -/
theorem parse_name_strips_git_suffix (raw : String) (uri : GitUri)
    (h : GitUrl.parse raw = .ok uri) :
    ∃ seg, repoSegOf raw = some seg ∧
      GitUri.git_suffix uri = strEndsWith seg (".git") ∧
      uri.name =
        (if strEndsWith seg (".git") then strDropRight seg 4 else seg) := by
  unfold GitUrl.parse at h
  unfold repoSegOf
  split at h
  · exact absurd h (by simp)
  · rename_i core heq
    dsimp only at h
    split at h
    · exact absurd h (by simp)
    · rename_i seg hseg
      refine ⟨seg, hseg, ?_⟩
      split at h
      · exact absurd h (by simp)
      · rename_i hne
        rw [← (Except.ok.inj h)]
        unfold nameOf
        by_cases hg : strEndsWith seg (".git") <;> simp [hg]

/-- Descriptor of the https widgets example remote of the spec, used to
instantiate the suffix-stripping theorem. -/
def widgetsUri : GitUri :=
  { host := some ("github.com")
    name := "widgets"
    owner := some ("acme")
    organization := none
    fullname := "acme/widgets"
    scheme := .Https
    user := none
    token := none
    port := none
    path := "acme/widgets.git"
    git_suffix := true
    scheme_prefix := true }

/-- Witness for C3 at the spec example: the https widgets remote parses
with name widgets and git_suffix true. -/
theorem parse_name_strips_git_suffix_witness :
    ∃ seg, repoSegOf ("https://github.com/acme/widgets.git") = some seg ∧
      GitUri.git_suffix widgetsUri = strEndsWith seg (".git") ∧
      widgetsUri.name =
        (if strEndsWith seg (".git") then strDropRight seg 4 else seg) :=
  parse_name_strips_git_suffix ("https://github.com/acme/widgets.git")
    widgetsUri (by rfl)

/-- C9: for paths satisfying the documented no-tilde precondition, inspect
existing returns the RepoPathExpansionError exactly when canonicalization
fails, and a canonicalizable path that is not inside a worktree hits the
fatal unimplemented marker instead of any handle or typed error. -/
theorem from_existing_expansion_error_iff (env : ExistingEnv) (p : String)
    (hno : strContains p '~' = false) :
    ((∃ e, env.canon = .error e) ↔
      (∃ e, (GitRepo.from_existing env p).1 =
        .err (.RepoPathExpansionError e))) ∧
    (∀ q, env.canon = .ok q →
      Git.is_inside_worktree env.worktree = false →
      (GitRepo.from_existing env p).1 = .unimplemented) := by
  obtain ⟨c, w, r⟩ := env
  refine ⟨⟨?_, ?_⟩, ?_⟩
  · rintro ⟨e, he⟩
    simp only at he
    subst he
    exact ⟨e, by simp [GitRepo.from_existing, hno]⟩
  · rintro ⟨e, he⟩
    cases c with
    | error e2 => exact ⟨e2, rfl⟩
    | ok q =>
      exfalso
      simp only [GitRepo.from_existing, hno, Bool.false_eq_true, if_false] at he
      by_cases hw : Git.is_inside_worktree w
      · simp only [hw, if_true] at he
        cases hr : Git.get_remote_url r with
        | error e2 => simp [hr] at he
        | ok v => simp [hr] at he
      · simp [hw] at he
  · intro q hq hw
    simp only at hq
    subst hq
    simp [GitRepo.from_existing, hno, hw]

/-- Witness for C9: a failing canonicalization yields the expansion error,
and a canonicalizable non-worktree path hits the unimplemented marker. -/
theorem from_existing_expansion_error_iff_witness :
    (∃ e, (GitRepo.from_existing
        { canon := .error ("no such file"), worktree := .text ("true"),
          remote := .text ("u") } ("/tmp/missing")).1 =
      .err (.RepoPathExpansionError e)) ∧
    (GitRepo.from_existing
        { canon := .ok ("/tmp/plain"), worktree := .text ("false"),
          remote := .text ("u") } ("/tmp/plain")).1 = .unimplemented :=
  ⟨(from_existing_expansion_error_iff _ _ (by decide)).1.mp ⟨"no such file", rfl⟩,
   (from_existing_expansion_error_iff _ _ (by decide)).2 ("/tmp/plain") rfl
     (by decide)⟩

/-- C4: for a no-tilde destination whose canonicalized form is already
inside a Git working tree, clone single returns the AlreadyExists error,
its trace holds only the optional creation of the previously absent
directory and the two read-only probes, and no event of the trace can
modify existing data (no clone issued, nothing removed). -/
theorem from_url_already_exists_unchanged (env : UrlEnv)
    (remote_url p q : String) (hno : strContains p '~' = false)
    (hprep : env.destExists = true ∨ env.mkdirRes = .ok ())
    (hcanon : env.canon1 = .ok q)
    (hw : Git.is_inside_worktree env.worktree1 = true) :
    GitRepo.from_url env remote_url p =
      (.err (.AlreadyExistsError q),
        (if env.destExists then [] else [Event.createDirAll p]) ++
          [Event.canonicalize p, Event.worktreeCheck q]) ∧
    (∀ ev ∈ (GitRepo.from_url env remote_url p).2,
      Event.modifiesData ev = false) := by
  obtain ⟨de, mk, c1, w1, cl, ex⟩ := env
  simp only at hcanon hw hprep
  subst hcanon
  cases de with
  | false =>
    rcases hprep with h | h
    · exact absurd h (by simp)
    · subst h
      refine ⟨by simp [GitRepo.from_url, ensureDir, hno, hw], ?_⟩
      intro ev hev
      simp [GitRepo.from_url, ensureDir, hno, hw] at hev
      rcases hev with h | h | h <;> subst h <;> rfl
  | true =>
    refine ⟨by simp [GitRepo.from_url, ensureDir, hno, hw], ?_⟩
    intro ev hev
    simp [GitRepo.from_url, ensureDir, hno, hw] at hev
    rcases hev with h | h <;> subst h <;> rfl

/-- Witness for C4: cloning into an existing directory that is already a
worktree yields the AlreadyExists error with a read-only trace. -/
theorem from_url_already_exists_unchanged_witness :
    GitRepo.from_url
        { destExists := true, mkdirRes := .ok (), canon1 := .ok ("/tmp/repo"),
          worktree1 := .text ("true\n"), cloneRes := .ok (),
          exEnv := { canon := .ok ("/tmp/repo"), worktree := .text ("true"),
                     remote := .text ("u") } }
        ("https://h/o/r.git") ("/tmp/repo") =
      (.err (.AlreadyExistsError ("/tmp/repo")),
        (if true then [] else [Event.createDirAll ("/tmp/repo")]) ++
          [Event.canonicalize ("/tmp/repo"),
           Event.worktreeCheck ("/tmp/repo")]) ∧
    (∀ ev ∈ (GitRepo.from_url
        { destExists := true, mkdirRes := .ok (), canon1 := .ok ("/tmp/repo"),
          worktree1 := .text ("true\n"), cloneRes := .ok (),
          exEnv := { canon := .ok ("/tmp/repo"), worktree := .text ("true"),
                     remote := .text ("u") } }
        ("https://h/o/r.git") ("/tmp/repo")).2,
      Event.modifiesData ev = false) :=
  from_url_already_exists_unchanged _ ("https://h/o/r.git") ("/tmp/repo")
    ("/tmp/repo") (by decide) (Or.inl rfl) rfl (by decide)

/-- Inspecting an existing directory never yields the AlreadyExists error:
that error belongs to clone single alone. -/
theorem from_existing_ne_already (ex : ExistingEnv) (p s : String) :
    (GitRepo.from_existing ex p).1 ≠ .err (.AlreadyExistsError s) := by
  by_cases h : strContains p '~'
  · simp [GitRepo.from_existing, h]
  · obtain ⟨c, w, r⟩ := ex
    cases c with
    | error e => simp [GitRepo.from_existing, h]
    | ok q =>
      by_cases hw : Git.is_inside_worktree w
      · cases hr : Git.get_remote_url r with
        | error e => simp [GitRepo.from_existing, h, hw, hr]
        | ok v => simp [GitRepo.from_existing, h, hw, hr]
      · simp [GitRepo.from_existing, h, hw]

/-- Inspecting an existing directory performs no recursive removal. -/
theorem from_existing_no_remove (ex : ExistingEnv) (p x : String) :
    Event.removeDirAll x ∉ (GitRepo.from_existing ex p).2 := by
  by_cases h : strContains p '~'
  · simp [GitRepo.from_existing, h]
  · obtain ⟨c, w, r⟩ := ex
    cases c with
    | error e => simp [GitRepo.from_existing, h]
    | ok q =>
      by_cases hw : Git.is_inside_worktree w
      · cases hr : Git.get_remote_url r with
        | error e => simp [GitRepo.from_existing, h, hw, hr]
        | ok v => simp [GitRepo.from_existing, h, hw, hr]
      · simp [GitRepo.from_existing, h, hw]

/-- C5: forced clone of a no-tilde destination removes and recreates an
existing destination directly before the clone invocation (with no worktree
check in between), only creates an absent destination and never removes
anything, and can never return the AlreadyExists error. -/
theorem from_url_force_fresh_dir (env : ForceEnv) (remote_url p q : String)
    (hno : strContains p '~' = false) :
    (env.destExists = true → env.removeRes = .ok () → env.mkdirRes = .ok () →
      env.canon1 = .ok q →
      ∃ rest, (GitRepo.from_url_force env remote_url p).2 =
        [Event.removeDirAll p, Event.createDirAll p, Event.canonicalize p,
         Event.gitClone remote_url p] ++ rest) ∧
    (env.destExists = false → env.mkdirRes = .ok () → env.canon1 = .ok q →
      (∃ rest, (GitRepo.from_url_force env remote_url p).2 =
        [Event.createDirAll p, Event.canonicalize p,
         Event.gitClone remote_url p] ++ rest) ∧
      (∀ x, Event.removeDirAll x ∉ (GitRepo.from_url_force env remote_url p).2)) ∧
    (∀ s, (GitRepo.from_url_force env remote_url p).1 ≠
      .err (.AlreadyExistsError s)) := by
  obtain ⟨de, rm, mk, c1, cl, ex⟩ := env
  refine ⟨?_, ?_, ?_⟩
  · intro hde hrm hmk hcanon
    simp only at hde hrm hmk hcanon
    subst hde; subst hrm; subst hmk; subst hcanon
    cases cl with
    | error e => exact ⟨[], by simp [GitRepo.from_url_force, forcePrep, hno]⟩
    | ok u =>
      exact ⟨(GitRepo.from_existing ex p).2,
        by simp [GitRepo.from_url_force, forcePrep, hno]⟩
  · intro hde hmk hcanon
    simp only at hde hmk hcanon
    subst hde; subst hmk; subst hcanon
    constructor
    · cases cl with
      | error e => exact ⟨[], by simp [GitRepo.from_url_force, forcePrep, hno]⟩
      | ok u =>
        exact ⟨(GitRepo.from_existing ex p).2,
          by simp [GitRepo.from_url_force, forcePrep, hno]⟩
    · intro x
      cases cl with
      | error e => simp [GitRepo.from_url_force, forcePrep, hno]
      | ok u =>
        simp [GitRepo.from_url_force, forcePrep, hno]
        exact from_existing_no_remove ex p x
  · intro s
    by_cases hfp : ∃ e t, forcePrep ⟨de, rm, mk, c1, cl, ex⟩ p = (.error e, t)
    · obtain ⟨e, t, hfp⟩ := hfp
      simp [GitRepo.from_url_force, hno, hfp]
    · rcases hfp2 : forcePrep ⟨de, rm, mk, c1, cl, ex⟩ p with ⟨fpr, fpt⟩
      cases fpr with
      | error e => exact absurd ⟨e, fpt, hfp2⟩ hfp
      | ok u =>
        cases c1 with
        | error e => simp [GitRepo.from_url_force, hno, hfp2]
        | ok q2 =>
          cases cl with
          | error e => simp [GitRepo.from_url_force, hno, hfp2]
          | ok u2 =>
            simp [GitRepo.from_url_force, hno, hfp2]
            exact from_existing_ne_already ex p s

/-- Witness for C5: with an existing destination the forced clone's trace
begins with removal and recreation directly followed by the clone; with an
absent destination only creation precedes the clone and nothing is removed;
the AlreadyExists error cannot appear. -/
theorem from_url_force_fresh_dir_witness :
    (∃ rest, (GitRepo.from_url_force
        { destExists := true, removeRes := .ok (), mkdirRes := .ok (),
          canon1 := .ok ("/tmp/d"), cloneRes := .ok (),
          exEnv := { canon := .ok ("/tmp/d"), worktree := .text ("true"),
                     remote := .text ("u") } } ("r") ("/tmp/d")).2 =
      [Event.removeDirAll ("/tmp/d"), Event.createDirAll ("/tmp/d"),
       Event.canonicalize ("/tmp/d"), Event.gitClone ("r") ("/tmp/d")] ++
        rest) ∧
    ((∃ rest, (GitRepo.from_url_force
        { destExists := false, removeRes := .ok (), mkdirRes := .ok (),
          canon1 := .ok ("/tmp/d"), cloneRes := .ok (),
          exEnv := { canon := .ok ("/tmp/d"), worktree := .text ("true"),
                     remote := .text ("u") } } ("r") ("/tmp/d")).2 =
      [Event.createDirAll ("/tmp/d"), Event.canonicalize ("/tmp/d"),
       Event.gitClone ("r") ("/tmp/d")] ++ rest) ∧
     (∀ x, Event.removeDirAll x ∉ (GitRepo.from_url_force
        { destExists := false, removeRes := .ok (), mkdirRes := .ok (),
          canon1 := .ok ("/tmp/d"), cloneRes := .ok (),
          exEnv := { canon := .ok ("/tmp/d"), worktree := .text ("true"),
                     remote := .text ("u") } } ("r") ("/tmp/d")).2)) ∧
    (∀ s, (GitRepo.from_url_force
        { destExists := true, removeRes := .ok (), mkdirRes := .ok (),
          canon1 := .ok ("/tmp/d"), cloneRes := .ok (),
          exEnv := { canon := .ok ("/tmp/d"), worktree := .text ("true"),
                     remote := .text ("u") } } ("r") ("/tmp/d")).1 ≠
      .err (.AlreadyExistsError s)) :=
  ⟨(from_url_force_fresh_dir _ ("r") ("/tmp/d") ("/tmp/d") (by decide)).1
      rfl rfl rfl rfl,
   (from_url_force_fresh_dir _ ("r") ("/tmp/d") ("/tmp/d") (by decide)).2.1
      rfl rfl rfl,
   (from_url_force_fresh_dir _ ("r") ("/tmp/d") ("/tmp/d") (by decide)).2.2⟩

/-- C6: a successful clone single derives its handle by inspecting the
populated destination: the result agrees with from_existing on the same
path, the handle's root_path is the canonicalized destination, its
remote_url is exactly what the command layer reports for origin there
(absent when none is configured), and the origin query of that directory
appears in the trace. -/
theorem from_url_success_rederives (env : UrlEnv) (remote_url p : String)
    (repo : GitRepo) (t : List Event)
    (h : GitRepo.from_url env remote_url p = (.ok repo, t)) :
    (GitRepo.from_existing env.exEnv p).1 = .ok repo ∧
    ∃ expanded, env.exEnv.canon = .ok expanded ∧
      GitRepo.root_path repo = expanded ∧
      Git.get_remote_url env.exEnv.remote = .ok (GitRepo.remote_url repo) ∧
      Event.getRemote ("origin") expanded ∈ t := by
  obtain ⟨de, mk, c1, w1, cl, c2, w2, r2⟩ := env
  by_cases hp : strContains p '~'
  · simp [GitRepo.from_url, hp] at h
  · have hleaf : ∀ (pre : List Event),
      (((GitRepo.from_existing ⟨c2, w2, r2⟩ p).1,
        pre ++ [Event.gitClone remote_url p] ++
          (GitRepo.from_existing ⟨c2, w2, r2⟩ p).2) :
        Outcome GitRepo × List Event) = (.ok repo, t) →
      (GitRepo.from_existing ⟨c2, w2, r2⟩ p).1 = .ok repo ∧
      ∃ expanded, c2 = .ok expanded ∧
        GitRepo.root_path repo = expanded ∧
        Git.get_remote_url r2 = .ok (GitRepo.remote_url repo) ∧
        Event.getRemote ("origin") expanded ∈ t := by
      intro pre hh
      cases c2 with
      | error e => simp [GitRepo.from_existing, hp] at hh
      | ok q2 =>
        by_cases hw2 : Git.is_inside_worktree w2
        · cases hr : Git.get_remote_url r2 with
          | error e => simp [GitRepo.from_existing, hp, hw2, hr] at hh
          | ok v =>
            simp only [GitRepo.from_existing, hp, Bool.false_eq_true,
              if_false, hw2, if_true, hr] at hh
            have h1 := congrArg Prod.fst hh
            have h2 := congrArg Prod.snd hh
            simp only at h1 h2
            have hrepo : repo = { root_path := q2, remote_url := v } :=
              (Outcome.ok.inj h1).symm
            subst hrepo
            subst h2
            exact ⟨by simp [GitRepo.from_existing, hp, hw2, hr], q2, rfl, rfl,
              by rfl, by simp⟩
        · simp [GitRepo.from_existing, hp, hw2] at hh
    cases de with
    | true =>
      cases c1 with
      | error e => simp [GitRepo.from_url, ensureDir, hp] at h
      | ok q =>
        by_cases hw : Git.is_inside_worktree w1
        · simp [GitRepo.from_url, ensureDir, hp, hw] at h
        · cases cl with
          | error e => simp [GitRepo.from_url, ensureDir, hp, hw] at h
          | ok u =>
            refine hleaf [Event.canonicalize p, Event.worktreeCheck q] ?_
            rw [← h]
            simp [GitRepo.from_url, ensureDir, hp, hw]
    | false =>
      cases mk with
      | error e => simp [GitRepo.from_url, ensureDir, hp] at h
      | ok u0 =>
        cases c1 with
        | error e => simp [GitRepo.from_url, ensureDir, hp] at h
        | ok q =>
          by_cases hw : Git.is_inside_worktree w1
          · simp [GitRepo.from_url, ensureDir, hp, hw] at h
          · cases cl with
            | error e => simp [GitRepo.from_url, ensureDir, hp, hw] at h
            | ok u =>
              refine hleaf [Event.createDirAll p, Event.canonicalize p,
                Event.worktreeCheck q] ?_
              rw [← h]
              simp [GitRepo.from_url, ensureDir, hp, hw]

/-- Oracle for the C6 witness: every step succeeds and the command layer
reports a canonical origin url that differs from the input remote. -/
def envW : UrlEnv :=
  { destExists := true, mkdirRes := .ok (), canon1 := .ok ("/tmp/w"),
    worktree1 := .text ("false"), cloneRes := .ok (),
    exEnv := { canon := .ok ("/tmp/w"), worktree := .text ("true"),
               remote := .text ("https://canonical/o/r.git\n") } }

/-- The handle the C6 witness run produces. -/
def repoW : GitRepo :=
  { root_path := "/tmp/w", remote_url := some ("https://canonical/o/r.git") }

/-- The trace the C6 witness run produces. -/
def traceW : List Event :=
  [Event.canonicalize ("/tmp/w"), Event.worktreeCheck ("/tmp/w"),
   Event.gitClone ("https://input/o/r.git") ("/tmp/w"),
   Event.canonicalize ("/tmp/w"), Event.worktreeCheck ("/tmp/w"),
   Event.getRemote ("origin") ("/tmp/w")]

/-- Witness for C6: a successful concrete clone yields the handle derived
from inspection, whose remote_url is the trimmed origin report of the
command layer rather than the input remote string. -/
theorem from_url_success_rederives_witness :
    (GitRepo.from_existing (UrlEnv.exEnv envW) ("/tmp/w")).1 = .ok repoW ∧
    ∃ expanded, (UrlEnv.exEnv envW).canon = .ok expanded ∧
      GitRepo.root_path repoW = expanded ∧
      Git.get_remote_url (UrlEnv.exEnv envW).remote =
        .ok (GitRepo.remote_url repoW) ∧
      Event.getRemote ("origin") expanded ∈ traceW :=
  from_url_success_rederives envW ("https://input/o/r.git") ("/tmp/w") repoW
    traceW (by rfl)

/-- When the multi-clone loop terminates normally, it yields one result
slot per remaining input, and the slot of the k-th remaining input is the
entry of its own iteration alone. -/
theorem runMulti_ok_get (envs : Nat → UrlEnv) (root : String)
    (urls : List String) :
    ∀ (i : Nat) rs t, runMulti envs root urls i = (.ok rs, t) →
      rs.length = urls.length ∧
      ∀ k url, urls[k]? = some url →
        rs[k]? = itemEntry ((GitRepo.cloneItem (envs (i + k)) root url).1) := by
  induction urls with
  | nil =>
    intro i rs t h
    simp only [runMulti, Prod.mk.injEq] at h
    obtain ⟨h1, h2⟩ := h
    have hrs : rs = [] := (Outcome.ok.inj h1).symm
    subst hrs
    exact ⟨rfl, fun k url hk => by simp at hk⟩
  | cons url rest ih =>
    intro i rs t h
    simp only [runMulti] at h
    rcases hco : GitRepo.cloneItem (envs i) root url with ⟨o, t0⟩
    rw [hco] at h
    cases o with
    | panic => simp at h
    | unimplemented => simp at h
    | ok r =>
      rcases hrec : runMulti envs root rest (i + 1) with ⟨o2, t2⟩
      rw [hrec] at h
      cases o2 with
      | ok entries =>
        simp only [pushEntry, Prod.mk.injEq] at h
        obtain ⟨h1, h2⟩ := h
        have hrs : rs = Except.ok r :: entries := (Outcome.ok.inj h1).symm
        subst hrs
        obtain ⟨hlen, hpt⟩ := ih (i + 1) entries t2 hrec
        refine ⟨by simp [hlen], ?_⟩
        intro k u hk
        cases k with
        | zero =>
          simp only [List.getElem?_cons_zero, Option.some.injEq] at hk
          subst hk
          simp only [List.getElem?_cons_zero, Nat.add_zero, hco, itemEntry]
        | succ k =>
          simp only [List.getElem?_cons_succ] at hk
          have := hpt k u hk
          simp only [List.getElem?_cons_succ]
          rw [this]
          have harith : i + 1 + k = i + (k + 1) := by omega
          rw [harith]
      | err e2 => simp [pushEntry] at h
      | panic => simp [pushEntry] at h
      | unimplemented => simp [pushEntry] at h
    | err e =>
      rcases hrec : runMulti envs root rest (i + 1) with ⟨o2, t2⟩
      rw [hrec] at h
      cases o2 with
      | ok entries =>
        simp only [pushEntry, Prod.mk.injEq] at h
        obtain ⟨h1, h2⟩ := h
        have hrs : rs = Except.error e :: entries := (Outcome.ok.inj h1).symm
        subst hrs
        obtain ⟨hlen, hpt⟩ := ih (i + 1) entries t2 hrec
        refine ⟨by simp [hlen], ?_⟩
        intro k u hk
        cases k with
        | zero =>
          simp only [List.getElem?_cons_zero, Option.some.injEq] at hk
          subst hk
          simp only [List.getElem?_cons_zero, Nat.add_zero, hco, itemEntry]
        | succ k =>
          simp only [List.getElem?_cons_succ] at hk
          have := hpt k u hk
          simp only [List.getElem?_cons_succ]
          rw [this]
          have harith : i + 1 + k = i + (k + 1) := by omega
          rw [harith]
      | err e2 => simp [pushEntry] at h
      | panic => simp [pushEntry] at h
      | unimplemented => simp [pushEntry] at h

/-- When every remaining iteration of the multi-clone loop produces a
result slot (no fatal panic), the loop terminates normally. -/
theorem runMulti_total (envs : Nat → UrlEnv) (root : String)
    (urls : List String) :
    ∀ (i : Nat),
      (∀ k url, urls[k]? = some url →
        (itemEntry ((GitRepo.cloneItem (envs (i + k)) root url).1)).isSome =
          true) →
      ∃ rs t, runMulti envs root urls i = (.ok rs, t) := by
  induction urls with
  | nil => exact fun i _ => ⟨[], [], rfl⟩
  | cons url rest ih =>
    intro i h
    have h0 := h 0 url (by simp)
    rw [Nat.add_zero] at h0
    have hshift : ∀ k u, rest[k]? = some u →
        (itemEntry ((GitRepo.cloneItem (envs (i + 1 + k)) root u).1)).isSome =
          true := by
      intro k u hk
      have := h (k + 1) u (by simp [hk])
      have harith : i + (k + 1) = i + 1 + k := by omega
      rw [harith] at this
      exact this
    obtain ⟨rs, t, hrec⟩ := ih (i + 1) hshift
    rcases hco : GitRepo.cloneItem (envs i) root url with ⟨o, t0⟩
    rw [hco] at h0
    cases o with
    | ok r =>
      exact ⟨Except.ok r :: rs, t0 ++ t,
        by simp only [runMulti, hco, hrec, pushEntry]⟩
    | err e =>
      exact ⟨Except.error e :: rs, t0 ++ t,
        by simp only [runMulti, hco, hrec, pushEntry]⟩
    | panic => simp [itemEntry] at h0
    | unimplemented => simp [itemEntry] at h0


/-- C1: when no iteration of a multi-clone batch hits a fatal panic, the
batch returns one result slot per input remote, in input order, and the
k-th slot is computed from the k-th input and its own oracle alone, so an
error in one slot never drops, reorders or aborts the others. -/
theorem from_url_multi_preserves_slots (envs : Nat → UrlEnv)
    (urls : List String) (root : String)
    (h : ∀ k url, urls[k]? = some url →
      (itemEntry ((GitRepo.cloneItem (envs k) root url).1)).isSome = true) :
    ∃ rs t, GitRepo.from_url_multi envs urls root = (.ok rs, t) ∧
      rs.length = urls.length ∧
      ∀ k url, urls[k]? = some url →
        rs[k]? = itemEntry ((GitRepo.cloneItem (envs k) root url).1) := by
  have h0 : ∀ k url, urls[k]? = some url →
      (itemEntry ((GitRepo.cloneItem (envs (0 + k)) root url).1)).isSome =
        true := by
    intro k url hk
    rw [Nat.zero_add]
    exact h k url hk
  obtain ⟨rs, t, hrun⟩ := runMulti_total envs root urls 0 h0
  obtain ⟨hlen, hpt⟩ := runMulti_ok_get envs root urls 0 rs t hrun
  refine ⟨rs, t, hrun, hlen, ?_⟩
  intro k url hk
  have := hpt k url hk
  rwa [Nat.zero_add] at this

/-- Oracle for the C1 witness: the destination is already a worktree, so
the syntactically valid remote yields the AlreadyExists error in its own
slot. -/
def envA : UrlEnv :=
  { destExists := true, mkdirRes := .ok (), canon1 := .ok ("/tmp/root/b"),
    worktree1 := .text ("true"), cloneRes := .ok (),
    exEnv := { canon := .ok ("/tmp/root/b"), worktree := .text ("true"),
               remote := .text ("u") } }

/-- Witness for C1: a batch of one failing clone and one invalid remote
still yields two ordered slots. -/
theorem from_url_multi_preserves_slots_witness :
    ∃ (rs : List (Except GitRepoError GitRepo)) (t : List Event),
      GitRepo.from_url_multi (fun _ => envA)
        (["a/b.git", "not a url"]) ("/tmp/root") = (.ok rs, t) ∧
      rs.length = (["a/b.git", "not a url"] : List String).length ∧
      ∀ (k : Nat) (url : String),
        (["a/b.git", "not a url"] : List String)[k]? = some url →
        rs[k]? =
          itemEntry ((GitRepo.cloneItem ((fun _ => envA) k) ("/tmp/root")
            url).1) :=
  from_url_multi_preserves_slots (fun _ => envA) (["a/b.git", "not a url"])
    ("/tmp/root")
    (by
      intro k url hk
      match k with
      | 0 =>
        simp only [List.getElem?_cons_zero, Option.some.injEq] at hk
        subst hk
        rfl
      | 1 =>
        simp only [List.getElem?_cons_succ, List.getElem?_cons_zero,
          Option.some.injEq] at hk
        subst hk
        rfl
      | n + 2 => simp at hk)

/-- C2: a remote whose normalization fails — whether the string cannot be
decomposed or it resolves to a scheme outside the Git-transportable set —
becomes the InvalidGitRemoteUrl error carrying that string, with no
external action (in particular no clone attempt), and inside any batch that
terminates normally the same invalid remote occupies exactly its own
slot. -/
theorem invalid_remote_isolated_slot (url : String)
    (h : (∃ m, GitUrl.parse url = .error (.invalid m)) ∨
      (∃ s, GitUrl.parse url = .error (.unsupportedScheme s))) :
    (∀ env root, GitRepo.cloneItem env root url =
      (.err (.InvalidGitRemoteUrl url), [])) ∧
    (∀ (envs : Nat → UrlEnv) (urls : List String) (root : String) (k : Nat)
      (rs : List (Except GitRepoError GitRepo)) (t : List Event),
      urls[k]? = some url →
      GitRepo.from_url_multi envs urls root = (.ok rs, t) →
      rs[k]? = some (.error (.InvalidGitRemoteUrl url))) := by
  have hfail : ∃ f, GitUrl.parse url = .error f := by
    rcases h with ⟨m, hm⟩ | ⟨s, hs⟩
    · exact ⟨.invalid m, hm⟩
    · exact ⟨.unsupportedScheme s, hs⟩
  obtain ⟨f, hf⟩ := hfail
  have hitem : ∀ env root, GitRepo.cloneItem env root url =
      (.err (.InvalidGitRemoteUrl url), []) := by
    intro env root
    simp [GitRepo.cloneItem, Git.parse_uri, hf]
  refine ⟨hitem, ?_⟩
  intro envs urls root k rs t hk hm
  have hpt := (runMulti_ok_get envs root urls 0 rs t hm).2 k url hk
  rw [hpt, hitem (envs (0 + k)) root]
  rfl

/-- Oracle for the C2 witness. -/
def envB : UrlEnv :=
  { destExists := true, mkdirRes := .ok (), canon1 := .ok ("/tmp/root/b"),
    worktree1 := .text ("true"), cloneRes := .ok (),
    exEnv := { canon := .ok ("/tmp/root/b"), worktree := .text ("true"),
               remote := .text ("u") } }

/-- The slots of the C2 witness batch. -/
def rsB : List (Except GitRepoError GitRepo) :=
  [.error (.AlreadyExistsError ("/tmp/root/b")),
   .error (.InvalidGitRemoteUrl ("not a url"))]

/-- The trace of the C2 witness batch. -/
def tB : List Event :=
  [Event.canonicalize ("/tmp/root/b"), Event.worktreeCheck ("/tmp/root/b")]

/-- Witness for C2: the invalid remote of a concrete batch produces the
InvalidGitRemoteUrl entry with an empty trace, and occupies exactly its own
slot of the batch result. -/
theorem invalid_remote_isolated_slot_witness :
    GitRepo.cloneItem envB ("/tmp/root") ("not a url") =
      (.err (.InvalidGitRemoteUrl ("not a url")), []) ∧
    rsB[1]? = some (.error (.InvalidGitRemoteUrl ("not a url"))) :=
  ⟨(invalid_remote_isolated_slot ("not a url")
      (Or.inl ⟨"not a url", rfl⟩)).1 envB ("/tmp/root"),
   (invalid_remote_isolated_slot ("not a url")
      (Or.inl ⟨"not a url", rfl⟩)).2 (fun _ => envB)
     (["a/b.git", "not a url"]) ("/tmp/root") 1 rsB tB (by rfl) (by rfl)⟩
